import Mathlib

/-!
# Verification of the `mapto` post store and reminder scheduler

Shallow embedding of the repository's core logic:

* `src/server.js`           — SQL-backed server (sanitizers, `normalizeRow`,
                              purge / fetch / create / like, haversine distance).
* `src/unnamed/part_000`    — in-memory server (same HTTP surface, its own
                              sanitization and purge).
* `src/public/main.js`      — client (reminder schedule builder, its own
                              haversine copy).
* `src/public/service-worker.js` — notification-trigger scheduling state.

JavaScript strings are modelled as lists of UTF-16 code units (`List Nat`);
JavaScript numbers that only ever hold exact values (timestamps, counters,
coordinates as data) are modelled as `ℚ`/`ℤ`, and the float trigonometry of
the distance function is modelled over `ℝ`.
-/

namespace Mapto

/-! ## Strings as UTF-16 code-unit sequences -/

/-- A JavaScript string: a finite sequence of UTF-16 code units. -/
abbrev JSString := List Nat

/-- The WhiteSpace / LineTerminator set recognised by `String.prototype.trim`. -/
def isJsWhitespace (u : Nat) : Bool :=
  decide (u = 0x09 ∨ u = 0x0A ∨ u = 0x0B ∨ u = 0x0C ∨ u = 0x0D ∨ u = 0x20 ∨
    u = 0xA0 ∨ u = 0x1680 ∨ (0x2000 ≤ u ∧ u ≤ 0x200A) ∨ u = 0x2028 ∨
    u = 0x2029 ∨ u = 0x202F ∨ u = 0x205F ∨ u = 0x3000 ∨ u = 0xFEFF)

/-- Strip leading JS whitespace. -/
def trimLeft (s : JSString) : JSString := s.dropWhile isJsWhitespace

/-- Strip trailing JS whitespace. -/
def trimRight (s : JSString) : JSString := (s.reverse.dropWhile isJsWhitespace).reverse

/-- `String.prototype.trim`. -/
def jsTrim (s : JSString) : JSString := trimRight (trimLeft s)

/-- High (leading) surrogate code unit. -/
def isHighSurrogate (u : Nat) : Bool := decide (0xD800 ≤ u ∧ u ≤ 0xDBFF)

/-- Low (trailing) surrogate code unit. -/
def isLowSurrogate (u : Nat) : Bool := decide (0xDC00 ≤ u ∧ u ≤ 0xDFFF)

/-- `Array.from(string)`: split a string into Unicode code points. A high
surrogate directly followed by a low surrogate forms one code point; any
other unit stands alone (lone surrogates included, as in JS). -/
def codePoints : JSString → List JSString
  | [] => []
  | [u] => [[u]]
  | u :: v :: rest =>
    if isHighSurrogate u && isLowSurrogate v then
      [u, v] :: codePoints rest
    else
      [u] :: codePoints (v :: rest)

/-- Number of Unicode code points in a string. -/
def cpLen (s : JSString) : Nat := (codePoints s).length

/-- A JavaScript value as seen by the sanitizers: either a string or
anything else (`typeof value !== "string"`), including `null`/`undefined`. -/
inductive JSVal where
  | str (s : JSString)
  | other
deriving DecidableEq

/-- The string carried by a `JSVal`, empty for non-strings. -/
def JSVal.raw : JSVal → JSString
  | .str s => s
  | .other => []

/-! ## Sanitizers (`src/server.js` lines 249–263) -/

/-- `sanitizeText` from `src/server.js`: non-strings become `""`; otherwise
trim, and truncate to the first 500 code points via `Array.from`. -/
def sanitizeText (value : JSVal) : JSString :=
  match value with
  | .other => []
  | .str s =>
    let trimmed := jsTrim s
    if trimmed = [] then []
    else
      let limited := ((codePoints trimmed).take 500).flatten
      if limited = [] then trimmed else limited

/-- `sanitizeMood` from `src/server.js`: as `sanitizeText` with a 4
code-point cap. -/
def sanitizeMood (value : JSVal) : JSString :=
  match value with
  | .other => []
  | .str s =>
    let trimmed := jsTrim s
    if trimmed = [] then []
    else
      let limited := ((codePoints trimmed).take 4).flatten
      if limited = [] then trimmed else limited

/-! ## In-memory backend sanitization (`src/unnamed/part_000` lines 69–72)

The in-memory create handler computes
`rawText.trim().slice(0, 500)` and `rawMood.trim().slice(0, 8)`;
`String.prototype.slice` counts UTF-16 code units. -/

/-- Stored text of the in-memory create handler. -/
def memStoredText (text : JSVal) : JSString :=
  let rawText := text.raw
  (jsTrim rawText).take 500

/-- Stored mood of the in-memory create handler (before the `|| null`). -/
def memStoredMood (mood : JSVal) : JSString :=
  let rawMood := mood.raw
  (jsTrim rawMood).take 8

/-- Modelled from the spec: "the stored text equals the first 500 Unicode
code points of the trimmed input text". -/
def specFirst500CodePoints (s : JSString) : JSString :=
  ((codePoints (jsTrim s)).take 500).flatten

/-- U+1F600 as its UTF-16 surrogate pair. -/
def astralSmiley : JSString := [0xD83D, 0xDE00]

/-- 251 astral code points: 502 UTF-16 code units. -/
def c1FailingText : JSString := (List.replicate 251 astralSmiley).flatten

/-! ## Code-point machinery lemmas -/

/-- Re-concatenating the code points of a string gives the string back. -/
theorem codePoints_flatten : ∀ s : JSString, (codePoints s).flatten = s
  | [] => rfl
  | [_] => rfl
  | u :: v :: rest => by
    by_cases h : isHighSurrogate u && isLowSurrogate v
    · simp [codePoints, h, codePoints_flatten rest]
    · simp [codePoints, h, codePoints_flatten (v :: rest)]

/-- The first code-point chunk of a nonempty string starts with its first
code unit. -/
theorem codePoints_cons_head (u : Nat) (rest : JSString) :
    ∃ c tl, codePoints (u :: rest) = (u :: c) :: tl := by
  match rest with
  | [] => exact ⟨[], [], rfl⟩
  | v :: rest2 =>
    by_cases h : isHighSurrogate u && isLowSurrogate v
    · exact ⟨[v], codePoints rest2, by simp [codePoints, h]⟩
    · exact ⟨[], codePoints (v :: rest2), by simp [codePoints, h]⟩

/-- Flattening a prefix of the code points of `u :: rest` yields either the
empty string or a string starting with `u`. -/
theorem flatten_take_codePoints_head (u : Nat) (rest : JSString) (n : Nat) :
    ((codePoints (u :: rest)).take n).flatten = [] ∨
    ∃ tl, ((codePoints (u :: rest)).take n).flatten = u :: tl := by
  obtain ⟨c, tl, h⟩ := codePoints_cons_head u rest
  cases n with
  | zero => exact Or.inl (by simp)
  | succ m => exact Or.inr ⟨c ++ (tl.take m).flatten, by rw [h]; simp⟩

/-- Flattening a nonempty prefix of the code points of a nonempty string is
nonempty. -/
theorem flatten_take_codePoints_ne_nil (u : Nat) (rest : JSString) (n : Nat) :
    ((codePoints (u :: rest)).take (n + 1)).flatten ≠ [] := by
  obtain ⟨c, tl, h⟩ := codePoints_cons_head u rest
  rw [h]
  simp

/-- Re-parsing the flattening of a prefix of a string's code points gives
back exactly that prefix: truncation by `Array.from(...).slice` is aligned
with code-point boundaries. -/
theorem codePoints_flatten_take :
    ∀ (s : JSString) (n : Nat),
      codePoints (((codePoints s).take n).flatten) = (codePoints s).take n
  | [], n => by simp [codePoints]
  | [u], n => by
    cases n with
    | zero => simp [codePoints]
    | succ m => simp [codePoints]
  | u :: v :: rest, n => by
    by_cases h : isHighSurrogate u && isLowSurrogate v
    · cases n with
      | zero => simp [codePoints]
      | succ m =>
        have hc : codePoints (u :: v :: rest) = [u, v] :: codePoints rest := by
          simp [codePoints, h]
        rw [hc]
        simp only [List.take_succ_cons, List.flatten_cons]
        have hr := codePoints_flatten_take rest m
        calc codePoints ([u, v] ++ ((codePoints rest).take m).flatten)
            = [u, v] :: codePoints (((codePoints rest).take m).flatten) := by
              simp [codePoints, h]
          _ = [u, v] :: (codePoints rest).take m := by rw [hr]
    · cases n with
      | zero => simp [codePoints]
      | succ m =>
        have hc : codePoints (u :: v :: rest) = [u] :: codePoints (v :: rest) := by
          simp [codePoints, h]
        rw [hc]
        simp only [List.take_succ_cons, List.flatten_cons]
        have hr := codePoints_flatten_take (v :: rest) m
        have hstep : codePoints (u :: ((codePoints (v :: rest)).take m).flatten) =
            [u] :: codePoints (((codePoints (v :: rest)).take m).flatten) := by
          rcases flatten_take_codePoints_head v rest m with hnil | ⟨tl, htl⟩
          · rw [hnil]; rfl
          · rw [htl]; simp [codePoints, h]
        simp only [List.singleton_append, hstep, hr]

/-- Code-point count of a code-point-aligned truncation. -/
theorem cpLen_flatten_take (t : JSString) (n : Nat) :
    cpLen (((codePoints t).take n).flatten) ≤ n := by
  unfold cpLen
  rw [codePoints_flatten_take]
  exact (List.length_take n (codePoints t)) ▸ min_le_left n _

/-! ## Claim C1 -/

set_option maxRecDepth 4000 in
/-- C1 (code bug in `src/unnamed/part_000`): the claim says every backend
stores the first 500 Unicode *code points* of the trimmed text, and that the
SQL and in-memory create handlers agree.  The SQL backend (`sanitizeText`,
`src/server.js`) does truncate by code points, but the in-memory handler
(`src/unnamed/part_000` line 70) truncates with `String.prototype.slice`,
which counts UTF-16 code units.  On a trimmed text of 251 astral code
points (502 code units) the SQL backend stores all 251 code points while
the in-memory backend stores only 250 (the first 500 code units). -/
theorem sanitizeText_backend_divergence :
    memStoredText (.str c1FailingText) ≠ specFirst500CodePoints c1FailingText ∧
    sanitizeText (.str c1FailingText) = specFirst500CodePoints c1FailingText ∧
    memStoredText (.str c1FailingText) ≠ sanitizeText (.str c1FailingText) ∧
    cpLen (memStoredText (.str c1FailingText)) = 250 ∧
    cpLen (sanitizeText (.str c1FailingText)) = 251 := by decide

/-! ## Claim C10 -/

/-- C10: `sanitizeText` returns at most 500 code points and `sanitizeMood`
at most 4; both return the empty string on every non-string input and on
every string that trims to empty.  (Both are total Lean functions, so in
particular the embedded operations cannot throw.) -/
theorem sanitize_bounds (v : JSVal) :
    cpLen (sanitizeText v) ≤ 500 ∧ cpLen (sanitizeMood v) ≤ 4 ∧
    (sanitizeText JSVal.other = [] ∧ sanitizeMood JSVal.other = []) ∧
    (∀ s : JSString, jsTrim s = [] →
      sanitizeText (.str s) = [] ∧ sanitizeMood (.str s) = []) := by
  refine ⟨?_, ?_, ⟨rfl, rfl⟩, fun s hs => by simp [sanitizeText, sanitizeMood, hs]⟩
  · cases v with
    | other => simp [sanitizeText, cpLen, codePoints]
    | str s =>
      by_cases ht : jsTrim s = []
      · simp [sanitizeText, ht, cpLen, codePoints]
      · obtain ⟨u, rest, he⟩ : ∃ u rest, jsTrim s = u :: rest := by
          cases h' : jsTrim s with
          | nil => exact absurd h' ht
          | cons a l => exact ⟨a, l, rfl⟩
        have hl : ((codePoints (jsTrim s)).take 500).flatten ≠ [] := by
          rw [he]; exact flatten_take_codePoints_ne_nil u rest 499
        simp only [sanitizeText, if_neg ht, if_neg hl]
        exact cpLen_flatten_take (jsTrim s) 500
  · cases v with
    | other => simp [sanitizeMood, cpLen, codePoints]
    | str s =>
      by_cases ht : jsTrim s = []
      · simp [sanitizeMood, ht, cpLen, codePoints]
      · obtain ⟨u, rest, he⟩ : ∃ u rest, jsTrim s = u :: rest := by
          cases h' : jsTrim s with
          | nil => exact absurd h' ht
          | cons a l => exact ⟨a, l, rfl⟩
        have hl : ((codePoints (jsTrim s)).take 4).flatten ≠ [] := by
          rw [he]; exact flatten_take_codePoints_ne_nil u rest 3
        simp only [sanitizeMood, if_neg ht, if_neg hl]
        exact cpLen_flatten_take (jsTrim s) 4

/-- Witness for C10: a whitespace-only string trims to empty and both
sanitizers return the empty string on it. -/
theorem sanitize_bounds_witness :
    jsTrim [0x20] = [] ∧ sanitizeText (.str [0x20]) = [] ∧
    sanitizeMood (.str [0x20]) = [] ∧ cpLen (sanitizeText (.str [0x20])) ≤ 500 :=
  ⟨by decide,
   ((sanitize_bounds (.str [0x20])).2.2.2 [0x20] (by decide)).1,
   ((sanitize_bounds (.str [0x20])).2.2.2 [0x20] (by decide)).2,
   (sanitize_bounds (.str [0x20])).1⟩

/-! ## Trim lemmas -/

/-- `dropWhile` is idempotent. -/
theorem dropWhile_idem (p : Nat → Bool) :
    ∀ l : JSString, (l.dropWhile p).dropWhile p = l.dropWhile p
  | [] => rfl
  | x :: xs => by
    by_cases h : p x
    · simp [List.dropWhile_cons, h, dropWhile_idem p xs]
    · simp [List.dropWhile_cons, h]

/-- `trimLeft` is idempotent. -/
theorem trimLeft_trimLeft (s : JSString) : trimLeft (trimLeft s) = trimLeft s :=
  dropWhile_idem isJsWhitespace s

/-- `trimRight` is idempotent. -/
theorem trimRight_trimRight (s : JSString) : trimRight (trimRight s) = trimRight s := by
  unfold trimRight
  rw [List.reverse_reverse, dropWhile_idem]

/-- `trimRight` only removes a suffix. -/
theorem trimRight_prefix (s : JSString) : trimRight s <+: s := by
  have h : s.reverse.dropWhile isJsWhitespace <:+ s.reverse := List.dropWhile_suffix _
  have h2 := h.reverse
  rwa [List.reverse_reverse] at h2

/-- The head of a `dropWhile` result fails the predicate. -/
theorem head_dropWhile_not (p : Nat → Bool) :
    ∀ (l : JSString) (x : Nat) (tl : JSString), l.dropWhile p = x :: tl → p x = false
  | [], x, tl => by simp
  | y :: ys, x, tl => by
    by_cases h : p y
    · rw [List.dropWhile_cons_of_pos h]
      exact head_dropWhile_not p ys x tl
    · rw [List.dropWhile_cons_of_neg h]
      intro he
      cases he
      exact eq_false_of_ne_true h

/-- A list whose head fails the predicate is untouched by `dropWhile`. -/
theorem dropWhile_cons_false (p : Nat → Bool) (x : Nat) (tl : JSString)
    (h : p x = false) : (x :: tl).dropWhile p = x :: tl :=
  List.dropWhile_cons_of_neg (by simp [h])

/-- `jsTrim` is idempotent. -/
theorem jsTrim_jsTrim (s : JSString) : jsTrim (jsTrim s) = jsTrim s := by
  have hL : trimLeft (jsTrim s) = jsTrim s := by
    cases he : jsTrim s with
    | nil => rfl
    | cons x tl =>
      have hpre : jsTrim s <+: trimLeft s := trimRight_prefix (trimLeft s)
      rw [he] at hpre
      obtain ⟨t, ht⟩ := hpre
      have hfix : trimLeft (x :: tl ++ t) = x :: tl ++ t := by
        rw [ht]; exact trimLeft_trimLeft s
      have hx : isJsWhitespace x = false :=
        head_dropWhile_not isJsWhitespace (x :: tl ++ t) x (tl ++ t) hfix
      exact dropWhile_cons_false isJsWhitespace x tl hx
  show trimRight (trimLeft (jsTrim s)) = jsTrim s
  rw [hL]
  show trimRight (trimRight (trimLeft s)) = jsTrim s
  rw [trimRight_trimRight]
  rfl

/-- Without truncation (at most 500 code points after trimming),
`sanitizeText` is exactly `jsTrim`. -/
theorem sanitizeText_of_small (s : JSString) (h : cpLen (jsTrim s) ≤ 500) :
    sanitizeText (.str s) = jsTrim s := by
  by_cases ht : jsTrim s = []
  · simp [sanitizeText, ht]
  · have htake : (codePoints (jsTrim s)).take 500 = codePoints (jsTrim s) :=
      List.take_of_length_le h
    have hfl : ((codePoints (jsTrim s)).take 500).flatten = jsTrim s := by
      rw [htake, codePoints_flatten]
    simp only [sanitizeText, if_neg ht, hfl]

/-- Without truncation (at most 4 code points after trimming),
`sanitizeMood` is exactly `jsTrim`. -/
theorem sanitizeMood_of_small (s : JSString) (h : cpLen (jsTrim s) ≤ 4) :
    sanitizeMood (.str s) = jsTrim s := by
  by_cases ht : jsTrim s = []
  · simp [sanitizeMood, ht]
  · have htake : (codePoints (jsTrim s)).take 4 = codePoints (jsTrim s) :=
      List.take_of_length_le h
    have hfl : ((codePoints (jsTrim s)).take 4).flatten = jsTrim s := by
      rw [htake, codePoints_flatten]
    simp only [sanitizeMood, if_neg ht, hfl]

/-- `sanitizeText` is idempotent when the trimmed input fits in 500 code
points. -/
theorem sanitizeText_idem_of_small (v : JSVal) (h : cpLen (jsTrim v.raw) ≤ 500) :
    sanitizeText (.str (sanitizeText v)) = sanitizeText v := by
  cases v with
  | other => decide
  | str s =>
    have h1 : sanitizeText (.str s) = jsTrim s := sanitizeText_of_small s h
    rw [h1]
    have h2 : cpLen (jsTrim (jsTrim s)) ≤ 500 := by rw [jsTrim_jsTrim]; exact h
    rw [sanitizeText_of_small (jsTrim s) h2, jsTrim_jsTrim]

/-- `sanitizeMood` is idempotent when the trimmed input fits in 4 code
points. -/
theorem sanitizeMood_idem_of_small (v : JSVal) (h : cpLen (jsTrim v.raw) ≤ 4) :
    sanitizeMood (.str (sanitizeMood v)) = sanitizeMood v := by
  cases v with
  | other => decide
  | str s =>
    have h1 : sanitizeMood (.str s) = jsTrim s := sanitizeMood_of_small s h
    rw [h1]
    have h2 : cpLen (jsTrim (jsTrim s)) ≤ 4 := by rw [jsTrim_jsTrim]; exact h
    rw [sanitizeMood_of_small (jsTrim s) h2, jsTrim_jsTrim]

/-! ## Posts, rows and `normalizeRow` (`src/server.js` lines 265–295) -/

/-- A JavaScript number as classified by `Number.isFinite`: either a finite
value or one of `NaN` / `Infinity` / `-Infinity`.  Finite values are modelled
exactly as rationals. -/
inductive JSNum where
  | fin (q : ℚ)
  | nan
  | inf
  | ninf
deriving DecidableEq

/-- `Number.isFinite`. -/
def JSNum.isFinite : JSNum → Bool
  | .fin _ => true
  | _ => false

/-- JavaScript truthiness of a number (`0` and `NaN` are falsy). -/
def JSNum.truthy : JSNum → Bool
  | .fin q => decide (q ≠ 0)
  | .nan => false
  | .inf => true
  | .ninf => true

/-- A stored post (`Post` typedef in both servers). -/
structure Post where
  id : String
  lat : ℚ
  lng : ℚ
  text : JSString
  mood : Option JSString
  timestamp : ℚ
  likes : ℕ
deriving DecidableEq

/-- A raw database row as read back by `SELECT` (`normalizeRow`'s input):
`id` may fail the `typeof entry.id === "string"` check, numeric columns may
coerce to non-finite values, `mood` may be `NULL` (`JSVal.other`). -/
structure Row where
  id : Option String
  lat : JSNum
  lng : JSNum
  text : JSVal
  mood : JSVal
  timestamp : JSNum
  likes : JSNum
deriving DecidableEq

/-- `normalizeRow` from `src/server.js`: re-coerce and re-sanitize a row
read from storage; `fresh` stands for the `randomUUID()` drawn when the row
has no string id. -/
def normalizeRow (fresh : String) (entry : Row) : Option Post :=
  match entry.lat, entry.lng, entry.timestamp with
  | .fin lat, .fin lng, .fin timestamp =>
    let text := sanitizeText entry.text
    let mood := sanitizeMood entry.mood
    some
      { id := entry.id.getD fresh
        lat := lat
        lng := lng
        text := text
        mood := if mood = [] then none else some mood
        timestamp := timestamp
        likes :=
          match entry.likes with
          | .fin q => if 0 ≤ q then (⌊q⌋).toNat else 0
          | _ => 0 }
  | _, _, _ => none

/-- The row that `SELECT` returns for a stored post (the columns written by
`createPost`'s `INSERT ... RETURNING`). -/
def rowOfPost (p : Post) : Row :=
  { id := some p.id
    lat := .fin p.lat
    lng := .fin p.lng
    text := .str p.text
    mood := match p.mood with | some m => .str m | none => .other
    timestamp := .fin p.timestamp
    likes := .fin (p.likes : ℚ) }

/-- The post assembled by the `POST /api/posts` handler of `src/server.js`
(lines 103–116) and handed to `createPost`: sanitized text, sanitized mood
with `|| null`, zero likes. -/
def createdPost (id : String) (lat lng : ℚ) (text mood : JSVal) (timestamp : ℚ) : Post :=
  let sanitizedText := sanitizeText text
  let sanitizedMood := sanitizeMood mood
  { id := id
    lat := lat
    lng := lng
    text := sanitizedText
    mood := if sanitizedMood = [] then none else some sanitizedMood
    timestamp := timestamp
    likes := 0 }

/-- 501 code points: 499 copies of `a`, then a space, then `b`.  Truncation
to 500 code points leaves a trailing space in the stored text. -/
def c3InputText : JSString := List.replicate 499 97 ++ [32, 98]

/-- The post created from `c3InputText`. -/
def c3StoredPost : Post := createdPost "p1" 0 0 (.str c3InputText) .other 0

/-! ## Claim C3 -/

set_option maxRecDepth 8000 in
/-- C3 counterexample: reloading a stored post through `normalizeRow` is not
the identity.  The 500-code-point truncation performed at creation can leave
trailing whitespace (here `499 × 'a'` then `' '`), which load-time
re-sanitization trims away, so the reloaded text differs from the stored
text. -/
theorem normalizeRow_roundtrip_counterexample :
    normalizeRow "f" (rowOfPost c3StoredPost) ≠ some c3StoredPost ∧
    c3StoredPost.text = List.replicate 499 97 ++ [32] ∧
    (normalizeRow "f" (rowOfPost c3StoredPost)).map Post.text =
      some (List.replicate 499 97) := by
  refine ⟨?_, ?_, ?_⟩ <;> decide

/-- C3 as amended: `normalizeRow` on the stored row reproduces the stored
`id`, `text`, `mood`, `timestamp` and `likes` exactly, provided the trimmed
input text and mood fit inside the 500 / 4 code-point caps (so creation
performed no truncation).  Truncation may expose trailing whitespace that a
reload trims again, which is exactly what the counterexample exhibits. -/
theorem normalizeRow_roundtrip_amended (fresh id : String) (lat lng timestamp : ℚ)
    (text mood : JSVal)
    (htext : cpLen (jsTrim text.raw) ≤ 500)
    (hmood : cpLen (jsTrim mood.raw) ≤ 4) :
    normalizeRow fresh (rowOfPost (createdPost id lat lng text mood timestamp)) =
      some (createdPost id lat lng text mood timestamp) := by
  have hT : sanitizeText (.str (sanitizeText text)) = sanitizeText text :=
    sanitizeText_idem_of_small text htext
  have hM : sanitizeMood (.str (sanitizeMood mood)) = sanitizeMood mood :=
    sanitizeMood_idem_of_small mood hmood
  by_cases hm : sanitizeMood mood = []
  · have hnone : sanitizeMood JSVal.other = [] := rfl
    simp [normalizeRow, rowOfPost, createdPost, hm, hT, hnone]
  · simp [normalizeRow, rowOfPost, createdPost, hm, hT, hM]

/-- Witness for C3's amended theorem at a concrete short post
(text `"hi"`, mood U+1F600). -/
theorem normalizeRow_roundtrip_amended_witness :
    normalizeRow "f0" (rowOfPost
        (createdPost "w1" 35 139 (.str [104, 105]) (.str astralSmiley) 1700)) =
      some (createdPost "w1" 35 139 (.str [104, 105]) (.str astralSmiley) 1700) :=
  normalizeRow_roundtrip_amended "f0" "w1" 35 139 1700 (.str [104, 105])
    (.str astralSmiley) (by decide) (by decide)

/-! ## Store constants and purge (`src/server.js` 172–178, `src/unnamed/part_000` 119–126) -/

/-- `POST_TTL_MS = 24 * 60 * 60 * 1000` (both servers). -/
def POST_TTL_MS : ℚ := 24 * 60 * 60 * 1000

/-- `DEFAULT_RADIUS_METERS = 5000` (both servers). -/
def DEFAULT_RADIUS_METERS : ℚ := 5000

/-- SQL purge: `DELETE FROM posts WHERE timestamp < cutoff` keeps exactly
the rows with `¬(timestamp < now - TTL)`. -/
def purgeExpiredPostsSql (store : List Post) (now : ℚ) : List Post :=
  store.filter (fun post => !(post.timestamp < now - POST_TTL_MS))

/-- Number of rows removed by a purge (the SQL `rowCount`; for the
in-memory backend, the number of spliced-out entries). -/
def purgeRemovedCount (store : List Post) (now : ℚ) : ℕ :=
  (store.filter (fun post => post.timestamp < now - POST_TTL_MS)).length

/-- In-memory purge: the downward `splice` loop of `src/unnamed/part_000`
lines 119–126, which deletes in place every entry with
`timestamp < cutoff` while keeping the order of the others. -/
def purgeExpiredPostsMem (posts : List Post) (now : ℚ) : List Post :=
  posts.foldr
    (fun post kept =>
      if post.timestamp < now - POST_TTL_MS then kept else post :: kept) []

/-- The splice loop is plain filtering. -/
theorem purgeExpiredPostsMem_eq_filter (posts : List Post) (now : ℚ) :
    purgeExpiredPostsMem posts now =
      posts.filter (fun post => !(post.timestamp < now - POST_TTL_MS)) := by
  induction posts with
  | nil => rfl
  | cons p rest ih =>
    by_cases h : p.timestamp < now - POST_TTL_MS
    · simp [purgeExpiredPostsMem, List.filter_cons, h] at ih ⊢
      exact ih
    · simp [purgeExpiredPostsMem, List.filter_cons, h] at ih ⊢
      exact ih

/-! ## Claim C9 -/

/-- C9: `purgeExpired` is idempotent in both backends: purging an already
purged store changes nothing and removes 0 posts. -/
theorem purgeExpiredPosts_idempotent (store : List Post) (now : ℚ) :
    purgeExpiredPostsSql (purgeExpiredPostsSql store now) now =
      purgeExpiredPostsSql store now ∧
    purgeRemovedCount (purgeExpiredPostsSql store now) now = 0 ∧
    purgeExpiredPostsMem (purgeExpiredPostsMem store now) now =
      purgeExpiredPostsMem store now ∧
    purgeRemovedCount (purgeExpiredPostsMem store now) now = 0 := by
  have hfil :
      ∀ l : List Post,
        (l.filter (fun post => !(post.timestamp < now - POST_TTL_MS))).filter
            (fun post => decide (post.timestamp < now - POST_TTL_MS)) = [] := by
    intro l
    rw [List.filter_filter]
    simp
  refine ⟨?_, ?_, ?_, ?_⟩
  · unfold purgeExpiredPostsSql
    rw [List.filter_filter]
    simp
  · unfold purgeExpiredPostsSql purgeRemovedCount
    rw [hfil]
    rfl
  · rw [purgeExpiredPostsMem_eq_filter, purgeExpiredPostsMem_eq_filter,
      List.filter_filter]
    simp
  · unfold purgeRemovedCount
    rw [purgeExpiredPostsMem_eq_filter, hfil]
    rfl

/-! ## Like operation (`src/server.js` 214–229, `src/unnamed/part_000` 96–106) -/

/-- In-memory like: `posts.find(...)`, then `post.likes += 1`; returns
`{id, likes}` or not-found, together with the store after the call. -/
def incrementLikesMem : List Post → String → Option (String × ℕ) × List Post
  | [], _ => (none, [])
  | p :: rest, id =>
    if p.id = id then
      (some (p.id, p.likes + 1), { p with likes := p.likes + 1 } :: rest)
    else
      let r := incrementLikesMem rest id
      (r.1, p :: r.2)

/-- SQL like: `UPDATE posts SET likes = likes + 1 WHERE id = $1 RETURNING
id, likes`; no returned row means not-found. -/
def incrementLikesSql (store : List Post) (id : String) :
    Option (String × ℕ) × List Post :=
  let updated :=
    store.map (fun p => if p.id = id then { p with likes := p.likes + 1 } else p)
  match updated.filter (fun p => p.id = id) with
  | [] => (none, updated)
  | r :: _ => (some (r.id, r.likes), updated)

/-! ## Claim C8 -/

/-- C8: liking an id that no stored post has returns not-found (the 404
path) in both backends and leaves the store — every existing post and its
likes counter — completely unchanged. -/
theorem incrementLikes_notfound (store : List Post) (id : String)
    (h : ∀ p ∈ store, p.id ≠ id) :
    incrementLikesSql store id = (none, store) ∧
    incrementLikesMem store id = (none, store) := by
  constructor
  · have hupd :
        store.map
          (fun p => if p.id = id then { p with likes := p.likes + 1 } else p) =
          store := by
      induction store with
      | nil => rfl
      | cons p rest ih =>
        have hp : p.id ≠ id := h p (List.mem_cons_self p rest)
        simp [hp]
        exact ih fun q hq => h q (List.mem_cons_of_mem p hq)
    have hfil : store.filter (fun p => decide (p.id = id)) = [] := by
      rw [List.filter_eq_nil_iff]
      intro p hp
      simp [h p hp]
    simp [incrementLikesSql, hupd, hfil]
  · induction store with
    | nil => rfl
    | cons p rest ih =>
      have hp : p.id ≠ id := h p (List.mem_cons_self p rest)
      have ih2 := ih fun q hq => h q (List.mem_cons_of_mem p hq)
      simp [incrementLikesMem, hp, ih2]

/-- Concrete post used in witnesses. -/
def wPost : Post :=
  { id := "w", lat := 0, lng := 0, text := [104], mood := none,
    timestamp := 5, likes := 0 }

/-- Witness for C8: liking id `"z"` in a store holding only `wPost`
(id `"w"`) is not-found and preserves the store in both backends. -/
theorem incrementLikes_notfound_witness :
    incrementLikesSql [wPost] "z" = (none, [wPost]) ∧
    incrementLikesMem [wPost] "z" = (none, [wPost]) :=
  incrementLikes_notfound [wPost] "z" (by decide)

/-! ## GET /api/posts (`src/server.js` 45–77, `src/unnamed/part_000` 28–55)

The handlers parse `lat` and `lng` with `parseFloat` and resolve the radius
with `parseFloat(req.query.radius) || DEFAULT_RADIUS_METERS`; the parse
results are modelled as `JSNum`.  The float haversine distance is kept
abstract as a parameter `dist`, since only comparisons against the radius
feed back into control flow. -/

/-- A response-ready post: the stored post spread together with
`ageMs: Date.now() - post.timestamp`. -/
structure AnnotatedPost extends Post where
  ageMs : ℚ
deriving DecidableEq

/-- The sort order of `(a, b) => b.timestamp - a.timestamp`: newest first. -/
def byNewest (a b : Post) : Prop := b.timestamp ≤ a.timestamp

instance : DecidableRel byNewest :=
  fun a b => inferInstanceAs (Decidable (b.timestamp ≤ a.timestamp))

instance : IsTotal Post byNewest := ⟨fun a b => le_total b.timestamp a.timestamp⟩

instance : IsTrans Post byNewest := ⟨fun _ _ _ hab hbc => le_trans hbc hab⟩

/-- `parseFloat(req.query.radius) || DEFAULT_RADIUS_METERS`: `NaN` and `0`
are falsy and fall back to the default. -/
def resolveRadius (radius : JSNum) : JSNum :=
  if radius.truthy then radius else .fin DEFAULT_RADIUS_METERS

/-- `radiusMeters <= 0` in JS: false for `NaN` and `Infinity`, true for
`-Infinity`. -/
def jsLeZero : JSNum → Bool
  | .fin q => decide (q ≤ 0)
  | .nan => false
  | .inf => false
  | .ninf => true

/-- `distance <= radiusMeters` in JS. -/
def distLeRadius (d : ℚ) : JSNum → Bool
  | .fin q => decide (d ≤ q)
  | .nan => false
  | .inf => true
  | .ninf => false

/-- Outcome of the GET handler: HTTP 400 or 200 with the annotated list. -/
inductive GetPostsResult where
  | badRequest
  | ok (posts : List AnnotatedPost)
deriving DecidableEq

/-- `{...post, ageMs: Date.now() - post.timestamp}`. -/
def annotate (now : ℚ) (p : Post) : AnnotatedPost :=
  { toPost := p, ageMs := now - p.timestamp }

/-- In-memory GET handler: purge, validate, filter by distance, sort
newest-first, annotate.  Returns the response and the store after the
request. -/
def getPostsMem (dist : ℚ → ℚ → ℚ → ℚ → ℚ) (store : List Post) (now : ℚ)
    (lat lng radius : JSNum) : GetPostsResult × List Post :=
  let purged := purgeExpiredPostsMem store now
  let radiusMeters := resolveRadius radius
  match lat, lng with
  | .fin la, .fin lo =>
    if jsLeZero radiusMeters then (.badRequest, purged)
    else
      let nearby :=
        purged.filter (fun post => distLeRadius (dist la lo post.lat post.lng) radiusMeters)
      let sorted := List.insertionSort byNewest nearby
      (.ok (sorted.map (annotate now)), purged)
  | _, _ => (.badRequest, purged)

/-- `fetchRecentPosts` from `src/server.js`: `SELECT ... WHERE timestamp >=
cutoff`, then `normalizeRow` each row, dropping `null`s. -/
def fetchRecentPosts (store : List Post) (now : ℚ) (fresh : String) : List Post :=
  (store.filter (fun post => now - POST_TTL_MS ≤ post.timestamp)).filterMap
    (fun post => normalizeRow fresh (rowOfPost post))

/-- SQL GET handler: purge, fetch-and-normalize, validate, filter by
distance, sort newest-first, annotate. -/
def getPostsSql (dist : ℚ → ℚ → ℚ → ℚ → ℚ) (fresh : String) (store : List Post)
    (now : ℚ) (lat lng radius : JSNum) : GetPostsResult × List Post :=
  let purged := purgeExpiredPostsSql store now
  let radiusMeters := resolveRadius radius
  match lat, lng with
  | .fin la, .fin lo =>
    if jsLeZero radiusMeters then (.badRequest, purged)
    else
      let posts := fetchRecentPosts purged now fresh
      let nearby :=
        posts.filter (fun post => distLeRadius (dist la lo post.lat post.lng) radiusMeters)
      let sorted := List.insertionSort byNewest nearby
      (.ok (sorted.map (annotate now)), purged)
  | _, _ => (.badRequest, purged)

/-- Sorting newest-first then annotating yields a list whose `ageMs` is
`now - timestamp` and whose timestamps never increase. -/
theorem annotate_sorted_props (now : ℚ) (nearby : List Post) :
    ((List.insertionSort byNewest nearby).map (annotate now)).Pairwise
        (fun a b => b.timestamp ≤ a.timestamp) ∧
    (∀ e ∈ (List.insertionSort byNewest nearby).map (annotate now),
      e.ageMs = now - e.timestamp) := by
  constructor
  · rw [List.pairwise_map]
    exact List.sorted_insertionSort byNewest nearby
  · intro e he
    obtain ⟨p, _, hp⟩ := List.mem_map.mp he
    subst hp
    rfl

/-! ## Claim C6 -/

/-- C6: the GET handler answers 400 exactly when `lat` or `lng` fails to
parse to a finite number or the resolved radius is `≤ 0`; a missing or
non-numeric (`NaN`) or zero radius silently resolves to the 5000 m default
instead of erroring; and every success response is the annotated
(`ageMs = now - timestamp`) list sorted newest-first — in both backends. -/
theorem getPosts_badRequest_iff (dist : ℚ → ℚ → ℚ → ℚ → ℚ) (fresh : String)
    (store : List Post) (now : ℚ) (lat lng radius : JSNum) :
    ((getPostsSql dist fresh store now lat lng radius).1 = .badRequest ↔
      (lat.isFinite = false ∨ lng.isFinite = false ∨
        jsLeZero (resolveRadius radius) = true)) ∧
    ((getPostsMem dist store now lat lng radius).1 = .badRequest ↔
      (lat.isFinite = false ∨ lng.isFinite = false ∨
        jsLeZero (resolveRadius radius) = true)) ∧
    (resolveRadius .nan = .fin DEFAULT_RADIUS_METERS ∧
      resolveRadius (.fin 0) = .fin DEFAULT_RADIUS_METERS) ∧
    (∀ l, (getPostsSql dist fresh store now lat lng radius).1 = .ok l →
      l.Pairwise (fun a b => b.timestamp ≤ a.timestamp) ∧
      ∀ e ∈ l, e.ageMs = now - e.timestamp) ∧
    (∀ l, (getPostsMem dist store now lat lng radius).1 = .ok l →
      l.Pairwise (fun a b => b.timestamp ≤ a.timestamp) ∧
      ∀ e ∈ l, e.ageMs = now - e.timestamp) := by
  refine ⟨?_, ?_, ⟨rfl, rfl⟩, ?_, ?_⟩
  · cases lat <;> cases lng <;>
      simp [getPostsSql, JSNum.isFinite] <;>
      by_cases hr : jsLeZero (resolveRadius radius) <;> simp [hr]
  · cases lat <;> cases lng <;>
      simp [getPostsMem, JSNum.isFinite] <;>
      by_cases hr : jsLeZero (resolveRadius radius) <;> simp [hr]
  · intro l hl
    cases lat <;> cases lng <;> simp [getPostsSql] at hl
    case fin.fin la lo =>
      by_cases hr : jsLeZero (resolveRadius radius)
      · simp [hr] at hl
      · simp [hr] at hl
        subst hl
        exact annotate_sorted_props now _
  · intro l hl
    cases lat <;> cases lng <;> simp [getPostsMem] at hl
    case fin.fin la lo =>
      by_cases hr : jsLeZero (resolveRadius radius)
      · simp [hr] at hl
      · simp [hr] at hl
        subst hl
        exact annotate_sorted_props now _

/-- Distance function used for concrete executions: everything at 0 m. -/
def dist0 : ℚ → ℚ → ℚ → ℚ → ℚ := fun _ _ _ _ => 0

/-- Witness for C6 at a concrete request: valid coordinates with an absent
(`NaN`) radius succeed, and the singleton response is annotated and
sorted. -/
theorem getPosts_badRequest_iff_witness :
    (getPostsMem dist0 [wPost] 10 (.fin 0) (.fin 0) .nan).1 =
      .ok [annotate 10 wPost] ∧
    ([annotate 10 wPost].Pairwise (fun a b => b.timestamp ≤ a.timestamp) ∧
      ∀ e ∈ [annotate 10 wPost], e.ageMs = 10 - e.timestamp) := by
  have hok : (getPostsMem dist0 [wPost] 10 (.fin 0) (.fin 0) .nan).1 =
      .ok [annotate 10 wPost] := by
    norm_num [getPostsMem, purgeExpiredPostsMem, resolveRadius, JSNum.truthy,
      jsLeZero, distLeRadius, dist0, wPost, POST_TTL_MS, DEFAULT_RADIUS_METERS,
      annotate]
  exact ⟨hok,
    (getPosts_badRequest_iff dist0 "f" [wPost] 10 (.fin 0) (.fin 0) .nan).2.2.2.2
      [annotate 10 wPost] hok⟩

/-! ## Claim C2 -/

/-- Boundary post for the TTL claims: age is exactly the TTL. -/
def c2Post : Post :=
  { id := "c2", lat := 0, lng := 0, text := [104], mood := none,
    timestamp := 0, likes := 0 }

/-- C2 counterexample: with `now = TTL`, the post with `timestamp = 0` has
`now - timestamp = TTL ≥ TTL`, yet purge-then-read still returns it,
because the purge deletes only `timestamp < now - TTL` and the read keeps
`timestamp >= now - TTL`. -/
theorem listActive_ttl_boundary_counterexample :
    (getPostsMem dist0 [c2Post] POST_TTL_MS (.fin 0) (.fin 0) .nan).1 =
      .ok [annotate POST_TTL_MS c2Post] ∧
    POST_TTL_MS - (annotate POST_TTL_MS c2Post).timestamp ≥ POST_TTL_MS ∧
    (getPostsSql dist0 "f" [c2Post] POST_TTL_MS (.fin 0) (.fin 0) .nan).1 =
      .ok [annotate POST_TTL_MS c2Post] := by
  refine ⟨?_, ?_, ?_⟩
  · norm_num [getPostsMem, purgeExpiredPostsMem, resolveRadius, JSNum.truthy,
      jsLeZero, distLeRadius, dist0, c2Post, POST_TTL_MS, DEFAULT_RADIUS_METERS,
      annotate]
  · norm_num [annotate, c2Post]
  · norm_num [getPostsSql, purgeExpiredPostsSql, fetchRecentPosts, normalizeRow,
      rowOfPost, sanitizeText, sanitizeMood, jsTrim, trimLeft, trimRight,
      isJsWhitespace, codePoints, resolveRadius, JSNum.truthy, jsLeZero,
      distLeRadius, dist0, c2Post, POST_TTL_MS, DEFAULT_RADIUS_METERS, annotate]

/-- C2 as amended: the purge-then-read listing path never returns a post
strictly older than the TTL — every returned post satisfies
`now - timestamp ≤ TTL` (equivalently `timestamp ≥ now - TTL`); a post aged
exactly TTL is still returned, so `≤` cannot be sharpened to `<`. -/
theorem listActive_ttl_amended (dist : ℚ → ℚ → ℚ → ℚ → ℚ) (fresh : String)
    (store : List Post) (now : ℚ) (lat lng radius : JSNum) :
    (∀ l, (getPostsSql dist fresh store now lat lng radius).1 = .ok l →
      ∀ e ∈ l, now - e.timestamp ≤ POST_TTL_MS) ∧
    (∀ l, (getPostsMem dist store now lat lng radius).1 = .ok l →
      ∀ e ∈ l, now - e.timestamp ≤ POST_TTL_MS) := by
  constructor
  · intro l hl e he
    cases lat <;> cases lng <;> simp [getPostsSql] at hl
    case fin.fin la lo =>
      by_cases hr : jsLeZero (resolveRadius radius)
      · simp [hr] at hl
      · simp [hr] at hl
        subst hl
        obtain ⟨p, hpmem, hpe⟩ := List.mem_map.mp he
        have hp2 : p ∈ (fetchRecentPosts (purgeExpiredPostsSql store now) now
            fresh).filter (fun post =>
              distLeRadius (dist la lo post.lat post.lng) (resolveRadius radius)) :=
          (List.mem_insertionSort byNewest).mp hpmem
        have hp3 : p ∈ fetchRecentPosts (purgeExpiredPostsSql store now) now fresh :=
          (List.mem_filter.mp hp2).1
        obtain ⟨p0, hp0mem, hp0⟩ := List.mem_filterMap.mp hp3
        have hts : now - POST_TTL_MS ≤ p0.timestamp := by
          have := (List.mem_filter.mp hp0mem).2
          simpa using this
        have hpt : p.timestamp = p0.timestamp := by
          have hnr : normalizeRow fresh (rowOfPost p0) =
              some { p with timestamp := p.timestamp } := by rw [hp0]
          by_cases hm : sanitizeMood (rowOfPost p0).mood = []
          · simp [normalizeRow, rowOfPost, hm] at hp0
            rw [← hp0]
          · simp [normalizeRow, rowOfPost, hm] at hp0
            rw [← hp0]
        subst hpe
        show now - p.timestamp ≤ POST_TTL_MS
        rw [hpt]
        linarith
  · intro l hl e he
    cases lat <;> cases lng <;> simp [getPostsMem] at hl
    case fin.fin la lo =>
      by_cases hr : jsLeZero (resolveRadius radius)
      · simp [hr] at hl
      · simp [hr] at hl
        subst hl
        obtain ⟨p, hpmem, hpe⟩ := List.mem_map.mp he
        have hp2 : p ∈ (purgeExpiredPostsMem store now).filter (fun post =>
            distLeRadius (dist la lo post.lat post.lng) (resolveRadius radius)) :=
          (List.mem_insertionSort byNewest).mp hpmem
        have hp3 : p ∈ purgeExpiredPostsMem store now :=
          (List.mem_filter.mp hp2).1
        rw [purgeExpiredPostsMem_eq_filter] at hp3
        have hts : ¬(p.timestamp < now - POST_TTL_MS) := by
          have := (List.mem_filter.mp hp3).2
          simpa using this
        subst hpe
        show now - p.timestamp ≤ POST_TTL_MS
        linarith [not_lt.mp hts]

/-- Witness for C2's amended theorem: the boundary post returned at
`now = TTL` indeed satisfies `now - timestamp ≤ TTL`. -/
theorem listActive_ttl_amended_witness :
    POST_TTL_MS - (annotate POST_TTL_MS c2Post).timestamp ≤ POST_TTL_MS := by
  have hok : (getPostsMem dist0 [c2Post] POST_TTL_MS (.fin 0) (.fin 0) .nan).1 =
      .ok [annotate POST_TTL_MS c2Post] := by
    norm_num [getPostsMem, purgeExpiredPostsMem, resolveRadius, JSNum.truthy,
      jsLeZero, distLeRadius, dist0, c2Post, POST_TTL_MS, DEFAULT_RADIUS_METERS,
      annotate]
  exact (listActive_ttl_amended dist0 "f" [c2Post] POST_TTL_MS
    (.fin 0) (.fin 0) .nan).2 [annotate POST_TTL_MS c2Post] hok
    (annotate POST_TTL_MS c2Post) (List.mem_singleton.mpr rfl)

/-! ## Reminder schedule builder (`src/public/main.js` 298–346)

`Date` values (all produced by `getTime`/`setHours` on integral epoch
milliseconds) are modelled as `ℤ`; the one float, `Math.random() * diff`,
makes the trigger time a `ℚ`.  `dayStart` for offset `d` is modelled as
`dayStart0 + d * 86400000` (fixed-length local days; the model abstracts
from daylight-saving shifts of `setDate`). -/

/-- One entry of `NOTIFICATION_WINDOWS`; the source objects carry only
`startHour`/`endHour`, and `windowSlot.startMinute || 0` reads the missing
minutes as 0. -/
structure WindowSlot where
  startHour : ℤ
  startMinute : ℤ
  endHour : ℤ
  endMinute : ℤ
deriving DecidableEq

/-- The three configured windows (`src/public/main.js` lines 1–5). -/
def NOTIFICATION_WINDOWS : List WindowSlot :=
  [⟨7, 0, 10, 0⟩, ⟨12, 0, 14, 0⟩, ⟨18, 0, 21, 0⟩]

/-- `REMINDER_LOOKAHEAD_DAYS = 3`. -/
def REMINDER_LOOKAHEAD_DAYS : ℕ := 3

/-- A reminder batch entry.  `time` is `Option` because the service worker
checks `typeof reminder.time !== "number"`; `tag` is `Option` because
`reminder.tag || ...` treats a missing or empty tag as falsy. -/
structure Reminder where
  time : Option ℚ
  title : String
  body : String
  tag : Option String
deriving DecidableEq

/-- `` `mapto-reminder-${dayOffset}-${windowSlot.startHour}-${index}` ``. -/
def reminderTag (dayOffset : ℕ) (slot : WindowSlot) (index : ℕ) : String :=
  "mapto-reminder-" ++ toString dayOffset ++ "-" ++ toString slot.startHour ++
    "-" ++ toString index

/-- `windowStart`: `setHours(startHour, startMinute || 0, 0, 0)` on the day
start. -/
def windowStartMs (dayStart : ℤ) (slot : WindowSlot) : ℤ :=
  dayStart + slot.startHour * 3600000 + slot.startMinute * 60000

/-- `windowEnd` before the empty-window coercion. -/
def windowEndMsRaw (dayStart : ℤ) (slot : WindowSlot) : ℤ :=
  dayStart + slot.endHour * 3600000 + slot.endMinute * 60000

/-- `windowEnd` after `if (windowEnd <= windowStart) windowEnd = windowStart
+ 1h` (lines 315–317). -/
def coercedWindowEnd (dayStart : ℤ) (slot : WindowSlot) : ℤ :=
  if windowEndMsRaw dayStart slot ≤ windowStartMs dayStart slot then
    windowStartMs dayStart slot + 3600000
  else windowEndMsRaw dayStart slot

/-- `effectiveStart`: the window start, clamped to `now` when the
day-0 window is already underway (lines 319–322). -/
def effectiveStartMs (now dayStart : ℤ) (dayOffset : ℕ) (slot : WindowSlot) : ℤ :=
  if dayOffset = 0 ∧ windowStartMs dayStart slot < now then now
  else windowStartMs dayStart slot

/-- The body of the inner `forEach` of `buildReminderSchedule` for one
`(dayOffset, windowSlot, index)`: skip already-passed day-0 windows, draw the
trigger `effectiveStart + r * max(1, windowEnd - effectiveStart)` and skip
it unless it is strictly in the future. -/
def buildReminderForWindow (now dayStart : ℤ) (dayOffset : ℕ) (slot : WindowSlot)
    (index : ℕ) (r : ℚ) (body : String) : Option Reminder :=
  if dayOffset = 0 ∧ windowEndMsRaw dayStart slot ≤ now then none
  else if coercedWindowEnd dayStart slot ≤ effectiveStartMs now dayStart dayOffset slot then
    none
  else if (effectiveStartMs now dayStart dayOffset slot : ℚ) +
      r * max 1 ((coercedWindowEnd dayStart slot : ℚ) -
        (effectiveStartMs now dayStart dayOffset slot : ℚ)) ≤ (now : ℚ) then
    none
  else
    some
      { time := some ((effectiveStartMs now dayStart dayOffset slot : ℚ) +
          r * max 1 ((coercedWindowEnd dayStart slot : ℚ) -
            (effectiveStartMs now dayStart dayOffset slot : ℚ)))
        title := "MapToからのお知らせ"
        body := body
        tag := some (reminderTag dayOffset slot index) }

/-- `buildReminderSchedule`: all day offsets `0..2` over all windows;
`rand d i ∈ [0,1)` stands for the `Math.random()` draw and `pick d i` for
the message choice of that iteration. -/
def buildReminderSchedule (now dayStart0 : ℤ) (rand : ℕ → ℕ → ℚ)
    (pick : ℕ → ℕ → String) : List Reminder :=
  (List.range REMINDER_LOOKAHEAD_DAYS).flatMap fun dayOffset =>
    NOTIFICATION_WINDOWS.enum.filterMap fun iw =>
      buildReminderForWindow now (dayStart0 + (dayOffset : ℤ) * 86400000) dayOffset
        iw.2 iw.1 (rand dayOffset iw.1) (pick dayOffset iw.1)

/-- Bounds on any reminder produced for a single window. -/
theorem buildReminderForWindow_bounds (now dayStart : ℤ) (dayOffset : ℕ)
    (slot : WindowSlot) (index : ℕ) (r : ℚ) (body : String) (rem : Reminder)
    (h0 : 0 ≤ r) (h1 : r < 1)
    (hb : buildReminderForWindow now dayStart dayOffset slot index r body = some rem) :
    ∃ t : ℚ, rem.time = some t ∧
      (effectiveStartMs now dayStart dayOffset slot : ℚ) ≤ t ∧
      t < (coercedWindowEnd dayStart slot : ℚ) ∧ (now : ℚ) < t := by
  unfold buildReminderForWindow at hb
  by_cases hg1 : dayOffset = 0 ∧ windowEndMsRaw dayStart slot ≤ now
  · rw [if_pos hg1] at hb; exact absurd hb (by simp)
  rw [if_neg hg1] at hb
  by_cases hg2 : coercedWindowEnd dayStart slot ≤ effectiveStartMs now dayStart dayOffset slot
  · rw [if_pos hg2] at hb; exact absurd hb (by simp)
  rw [if_neg hg2] at hb
  by_cases hg3 : (effectiveStartMs now dayStart dayOffset slot : ℚ) +
      r * max 1 ((coercedWindowEnd dayStart slot : ℚ) -
        (effectiveStartMs now dayStart dayOffset slot : ℚ)) ≤ (now : ℚ)
  · rw [if_pos hg3] at hb; exact absurd hb (by simp)
  rw [if_neg hg3] at hb
  have hrem := (Option.some.injEq _ _).mp hb
  set es := effectiveStartMs now dayStart dayOffset slot with hes
  set we := coercedWindowEnd dayStart slot with hwe
  have hlt : es < we := lt_of_not_le hg2
  have h1le : es + 1 ≤ we := Int.add_one_le_iff.mpr hlt
  have hq : (1 : ℚ) ≤ (we : ℚ) - (es : ℚ) := by
    have : ((es : ℚ) + 1 : ℚ) ≤ (we : ℚ) := by exact_mod_cast h1le
    linarith
  have hmax : max 1 ((we : ℚ) - (es : ℚ)) = (we : ℚ) - (es : ℚ) := max_eq_right hq
  refine ⟨(es : ℚ) + r * max 1 ((we : ℚ) - (es : ℚ)), by rw [← hrem], ?_, ?_, ?_⟩
  · have : 0 ≤ r * max 1 ((we : ℚ) - (es : ℚ)) := by
      apply mul_nonneg h0
      rw [hmax]; linarith
    linarith
  · rw [hmax]
    have hpos : (0 : ℚ) < (we : ℚ) - (es : ℚ) := by linarith
    have := mul_lt_mul_of_pos_right h1 hpos
    linarith
  · exact lt_of_not_le hg3

/-! ## Claim C4 -/

/-- C4: every reminder produced by `buildReminderSchedule` (with all random
draws in `[0,1)`) belongs to some day offset `< 3` and configured window,
and its trigger time lies in `[effectiveStart, windowEnd)` and is strictly
after `now`.  In the spec's scenario (now 09:00, window `[07:00, 10:00)`,
day offset 0) the effective start is 09:00, so the trigger is never before
09:00 and never at or after 10:00. -/
theorem buildReminderSchedule_trigger_bounds (now dayStart0 : ℤ)
    (rand : ℕ → ℕ → ℚ) (pick : ℕ → ℕ → String)
    (hr : ∀ d i, 0 ≤ rand d i ∧ rand d i < 1) :
    ∀ rem ∈ buildReminderSchedule now dayStart0 rand pick,
      ∃ (dayOffset index : ℕ) (slot : WindowSlot) (t : ℚ),
        dayOffset < REMINDER_LOOKAHEAD_DAYS ∧
        (index, slot) ∈ NOTIFICATION_WINDOWS.enum ∧
        rem.time = some t ∧
        (effectiveStartMs now (dayStart0 + (dayOffset : ℤ) * 86400000) dayOffset
          slot : ℚ) ≤ t ∧
        t < (coercedWindowEnd (dayStart0 + (dayOffset : ℤ) * 86400000) slot : ℚ) ∧
        (now : ℚ) < t := by
  intro rem hmem
  unfold buildReminderSchedule at hmem
  obtain ⟨d, hd, hmem2⟩ := List.mem_flatMap.mp hmem
  obtain ⟨iw, hiw, hbuild⟩ := List.mem_filterMap.mp hmem2
  obtain ⟨t, ht, hb1, hb2, hb3⟩ :=
    buildReminderForWindow_bounds now (dayStart0 + (d : ℤ) * 86400000) d iw.2 iw.1
      (rand d iw.1) (pick d iw.1) rem (hr d iw.1).1 (hr d iw.1).2 hbuild
  exact ⟨d, iw.1, iw.2, t, List.mem_range.mp hd, by rw [Prod.mk.eta]; exact hiw,
    ht, hb1, hb2, hb3⟩

/-- The reminder of the spec scenario: now = 09:00 of day 0, window
`[07:00, 10:00)`, draw `r = 1/2`, trigger 09:30. -/
def c4Reminder : Reminder :=
  { time := some 34200000, title := "MapToからのお知らせ", body := "m",
    tag := some (reminderTag 0 ⟨7, 0, 10, 0⟩ 0) }

/-- Witness for C4 on the spec scenario (`now` = 09:00 = 32400000 ms,
`dayStart0` = 0, all draws `1/2`): the produced reminder respects the
bounds. -/
theorem buildReminderSchedule_trigger_bounds_witness :
    ∃ (dayOffset index : ℕ) (slot : WindowSlot) (t : ℚ),
      dayOffset < REMINDER_LOOKAHEAD_DAYS ∧
      (index, slot) ∈ NOTIFICATION_WINDOWS.enum ∧
      c4Reminder.time = some t ∧
      (effectiveStartMs 32400000 (0 + (dayOffset : ℤ) * 86400000) dayOffset
        slot : ℚ) ≤ t ∧
      t < (coercedWindowEnd (0 + (dayOffset : ℤ) * 86400000) slot : ℚ) ∧
      ((32400000 : ℤ) : ℚ) < t := by
  have hbuild : buildReminderForWindow 32400000 (0 + ((0 : ℕ) : ℤ) * 86400000) 0
      ⟨7, 0, 10, 0⟩ 0 (1 / 2) "m" = some c4Reminder := by
    norm_num [buildReminderForWindow, coercedWindowEnd, effectiveStartMs,
      windowStartMs, windowEndMsRaw, c4Reminder]
  have hmem : c4Reminder ∈ buildReminderSchedule 32400000 0 (fun _ _ => 1 / 2)
      (fun _ _ => "m") := by
    unfold buildReminderSchedule
    refine List.mem_flatMap.mpr ⟨0, by decide, ?_⟩
    exact List.mem_filterMap.mpr ⟨(0, ⟨7, 0, 10, 0⟩), by decide, hbuild⟩
  exact buildReminderSchedule_trigger_bounds 32400000 0 (fun _ _ => 1 / 2)
    (fun _ _ => "m") (fun _ _ => ⟨by norm_num, by norm_num⟩) c4Reminder hmem

/-! ## Service-worker trigger scheduling (`src/public/service-worker.js` 40–97)

State: the set of armed (possibly already triggered) notifications that
`registration.getNotifications({includeTriggered: true})` would return, and
the `scheduledTags` set.  `Option String` models the falsiness of a missing
or empty tag.  The trigger-capable path is assumed
(`supportsNotificationTriggers()` true); on the unsupported path both
operations are no-ops. -/

/-- An armed notification: its `tag` option, the `data.tag` it was armed
with, and its trigger timestamp. -/
structure SWNotification where
  title : String
  body : String
  tag : Option String
  dataTag : Option String
  time : Option ℚ
deriving DecidableEq

/-- The service-worker global state. -/
structure SWState where
  notifications : List SWNotification
  scheduledTags : List String
deriving DecidableEq

/-- `notification?.data?.tag || notification.tag`. -/
def recognizedTag (n : SWNotification) : Option String :=
  match n.dataTag with
  | some t => some t
  | none => n.tag

/-- `cancelReminders`: close every notification whose recognized tag is
falsy, or whenever `scheduledTags` is empty, or whose tag is a member of
`scheduledTags`; finally clear `scheduledTags`. -/
def cancelReminders (s : SWState) : SWState :=
  { notifications :=
      s.notifications.filter fun n =>
        match recognizedTag n with
        | none => false
        | some t => decide (s.scheduledTags ≠ []) && !(s.scheduledTags.contains t)
    scheduledTags := [] }

/-- `"mapto-reminder"`, the fallback tag of `reminder.tag || ...`. -/
def defaultReminderTag : String := "mapto-reminder"

/-- The key a reminder is armed under. -/
def reminderKey (r : Reminder) : String := r.tag.getD defaultReminderTag

/-- The notification armed by `showNotification` for one reminder. -/
def armNotification (r : Reminder) : SWNotification :=
  { title := if r.title = "" then "MapToからのお知らせ" else r.title
    body := r.body
    tag := some (reminderKey r)
    dataTag := some (reminderKey r)
    time := r.time }

/-- `showNotification` with a tag replaces any notification already armed
under the same tag. -/
def showNotif (l : List SWNotification) (n : SWNotification) : List SWNotification :=
  match n.tag with
  | none => l ++ [n]
  | some t => l.filter (fun m => m.tag ≠ some t) ++ [n]

/-- `scheduledTags.add(tag)` on the JS `Set`. -/
def addScheduledTag (t : String) (tags : List String) : List String :=
  if t ∈ tags then tags else tags ++ [t]

/-- One iteration of the arming loop of `scheduleReminders`: skip entries
without a numeric `time`, otherwise arm the notification and record a
truthy tag. -/
def armStep (st : SWState) (r : Reminder) : SWState :=
  match r.time with
  | none => st
  | some _ =>
    { notifications := showNotif st.notifications (armNotification r)
      scheduledTags :=
        match r.tag with
        | some t => addScheduledTag t st.scheduledTags
        | none => st.scheduledTags }

/-- `scheduleReminders`: empty batches return immediately; otherwise cancel
everything first and then arm the batch in order. -/
def scheduleReminders (s : SWState) (reminders : List Reminder) : SWState :=
  if reminders.isEmpty then s
  else reminders.foldl armStep (cancelReminders s)

/-- `scheduleNotificationsWithTriggers` (`src/public/main.js` 275–296):
send `cancelReminders`, then — only for a nonempty build —
`scheduleReminders`. -/
def scheduleNotificationsWithTriggers (s : SWState) (reminders : List Reminder) : SWState :=
  if reminders.isEmpty then cancelReminders s
  else scheduleReminders (cancelReminders s) reminders

/-- Cancelling twice in a row empties the service-worker state: the second
pass runs with an empty `scheduledTags`, which closes every notification. -/
theorem cancelReminders_cancelReminders (s : SWState) :
    cancelReminders (cancelReminders s) = { notifications := [], scheduledTags := [] } := by
  unfold cancelReminders
  simp only [SWState.mk.injEq, and_true]
  rw [List.filter_eq_nil_iff]
  intro n _
  cases h : recognizedTag n <;> simp [h]

/-- Arming a batch of valid reminders with fresh keys appends exactly its
notifications and tags. -/
theorem foldl_armStep (l : List Reminder) : ∀ acc : SWState,
    (∀ r ∈ l, r.time ≠ none ∧ r.tag ≠ none) →
    (l.map reminderKey).Nodup →
    (∀ r ∈ l, ∀ m ∈ acc.notifications, m.tag ≠ some (reminderKey r)) →
    (∀ r ∈ l, reminderKey r ∉ acc.scheduledTags) →
    l.foldl armStep acc =
      { notifications := acc.notifications ++ l.map armNotification
        scheduledTags := acc.scheduledTags ++ l.map reminderKey } := by
  induction l with
  | nil => intro acc _ _ _ _; simp
  | cons r rest ih =>
    intro acc hvalid hnodup hfreshN hfreshT
    obtain ⟨ht0, htag⟩ := hvalid r (List.mem_cons_self r rest)
    obtain ⟨t0, ht0'⟩ := Option.ne_none_iff_exists'.mp ht0
    obtain ⟨tg, htg⟩ := Option.ne_none_iff_exists'.mp htag
    have hkey : reminderKey r = tg := by rw [reminderKey, htg]; rfl
    have hnodup' := hnodup
    rw [List.map_cons] at hnodup'
    have hhead : reminderKey r ∉ rest.map reminderKey := (List.nodup_cons.mp hnodup').1
    have htail : (rest.map reminderKey).Nodup := (List.nodup_cons.mp hnodup').2
    have hne : ∀ q ∈ rest, reminderKey r ≠ reminderKey q := by
      intro q hq hcontra
      exact hhead (hcontra ▸ List.mem_map_of_mem reminderKey hq)
    have hshow : showNotif acc.notifications (armNotification r) =
        acc.notifications.filter (fun m => m.tag ≠ some (reminderKey r)) ++
          [armNotification r] := rfl
    have hfilter :
        acc.notifications.filter (fun m => m.tag ≠ some (reminderKey r)) =
          acc.notifications := by
      rw [List.filter_eq_self]
      intro m hm
      simpa using hfreshN r (List.mem_cons_self r rest) m hm
    have hnotin : reminderKey r ∉ acc.scheduledTags :=
      hfreshT r (List.mem_cons_self r rest)
    have hstep : armStep acc r =
        { notifications := acc.notifications ++ [armNotification r]
          scheduledTags := acc.scheduledTags ++ [reminderKey r] } := by
      simp only [armStep, ht0', htg]
      rw [hshow, hfilter, addScheduledTag, if_neg (hkey ▸ hnotin), hkey]
    rw [List.foldl_cons, hstep]
    rw [ih _ (fun q hq => hvalid q (List.mem_cons_of_mem r hq)) htail ?_ ?_]
    · simp [List.append_assoc]
    · intro q hq m hm
      rcases List.mem_append.mp hm with hm2 | hm2
      · exact hfreshN q (List.mem_cons_of_mem r hq) m hm2
      · have hm3 : m = armNotification r := by simpa using hm2
        subst hm3
        show (armNotification r).tag ≠ some (reminderKey q)
        have : (armNotification r).tag = some (reminderKey r) := rfl
        rw [this]
        intro hcontra
        exact hne q hq (Option.some.inj hcontra)
    · intro q hq
      rw [List.mem_append]
      push_neg
      refine ⟨hfreshT q (List.mem_cons_of_mem r hq), ?_⟩
      simp [(hne q hq).symm]

/-! ## Claim C5 -/

/-- C5: over the trigger-capable path, running the schedule flow twice is a
full replace.  Whatever the initial service-worker state and whatever the
first build armed, after the second (nonempty, valid: numeric times, truthy
pairwise-distinct tags) batch completes, the armed notifications are exactly
those of the second build and `scheduledTags` holds exactly its tags —
nothing from the first build survives, because each flow cancels before
arming and a cancel pass with empty `scheduledTags` also closes every
notification regardless of tag. -/
theorem scheduleReminders_full_replace (s0 : SWState) (b1 b2 : List Reminder)
    (hne : b2 ≠ [])
    (hvalid : ∀ r ∈ b2, r.time ≠ none ∧ r.tag ≠ none)
    (hnodup : (b2.map reminderKey).Nodup) :
    (scheduleNotificationsWithTriggers
        (scheduleNotificationsWithTriggers s0 b1) b2).notifications =
      b2.map armNotification ∧
    (scheduleNotificationsWithTriggers
        (scheduleNotificationsWithTriggers s0 b1) b2).scheduledTags =
      b2.map reminderKey := by
  have hb2 : b2.isEmpty = false := by
    cases b2 with
    | nil => exact absurd rfl hne
    | cons a l => rfl
  set s1 := scheduleNotificationsWithTriggers s0 b1
  have hflow : scheduleNotificationsWithTriggers s1 b2 =
      b2.foldl armStep { notifications := [], scheduledTags := [] } := by
    rw [scheduleNotificationsWithTriggers, hb2]
    simp only [Bool.false_eq_true, if_false]
    rw [scheduleReminders, hb2]
    simp only [Bool.false_eq_true, if_false]
    rw [cancelReminders_cancelReminders]
  rw [hflow, foldl_armStep b2 _ hvalid hnodup (by intro _ _ _ hm; cases hm)
    (by intro _ _ hm; cases hm)]
  exact ⟨by simp, by simp⟩

/-- First build of the C5 witness. -/
def c5Build1 : List Reminder :=
  [{ time := some 100, title := "a", body := "b", tag := some "mapto-reminder-0-7-0" }]

/-- Second build of the C5 witness, with different trigger times and two
windows. -/
def c5Build2 : List Reminder :=
  [{ time := some 200, title := "a", body := "b", tag := some "mapto-reminder-0-7-0" },
   { time := some 300, title := "a", body := "c", tag := some "mapto-reminder-0-12-1" }]

/-- An initial service-worker state with a stale notification. -/
def c5State0 : SWState :=
  { notifications :=
      [{ title := "old", body := "old", tag := some "stale", dataTag := none,
         time := some 1 }]
    scheduledTags := [] }

/-- Witness for C5: after scheduling `c5Build1` and then `c5Build2` from
the stale state, exactly `c5Build2`'s notifications and tags are armed. -/
theorem scheduleReminders_full_replace_witness :
    (scheduleNotificationsWithTriggers
        (scheduleNotificationsWithTriggers c5State0 c5Build1) c5Build2).notifications =
      c5Build2.map armNotification ∧
    (scheduleNotificationsWithTriggers
        (scheduleNotificationsWithTriggers c5State0 c5Build1) c5Build2).scheduledTags =
      c5Build2.map reminderKey :=
  scheduleReminders_full_replace c5State0 c5Build1 c5Build2 (by decide)
    (by decide) (by decide)

/-! ## Haversine distance (`src/server.js` 231–247, `src/unnamed/part_000`
128–144, `src/public/main.js` 759–775)

The three copies are modelled over `ℝ` (the float trigonometry has no
exact finite embedding); `toRad` is the identical helper next to each
copy. -/

/-- `toRad(value) = value * Math.PI / 180`. -/
noncomputable def toRad (value : ℝ) : ℝ := value * Real.pi / 180

/-- `Math.atan2` on real arguments. -/
noncomputable def jsAtan2 (y x : ℝ) : ℝ :=
  if 0 < x then Real.arctan (y / x)
  else if x = 0 then
    (if 0 < y then Real.pi / 2 else if y < 0 then -(Real.pi / 2) else 0)
  else if 0 ≤ y then Real.arctan (y / x) + Real.pi
  else Real.arctan (y / x) - Real.pi

/-- `distanceInMeters` as written in `src/server.js`. -/
noncomputable def distanceInMetersServer (lat1 lng1 lat2 lng2 : ℝ) : ℝ :=
  let R : ℝ := 6371000
  let dLat := toRad (lat2 - lat1)
  let dLng := toRad (lng2 - lng1)
  let a :=
    Real.sin (dLat / 2) * Real.sin (dLat / 2) +
      Real.cos (toRad lat1) * Real.cos (toRad lat2) *
        Real.sin (dLng / 2) * Real.sin (dLng / 2)
  let c := 2 * jsAtan2 (Real.sqrt a) (Real.sqrt (1 - a))
  R * c

/-- `distanceInMeters` as written in `src/unnamed/part_000`. -/
noncomputable def distanceInMetersMem (lat1 lng1 lat2 lng2 : ℝ) : ℝ :=
  let R : ℝ := 6371000
  let dLat := toRad (lat2 - lat1)
  let dLng := toRad (lng2 - lng1)
  let a :=
    Real.sin (dLat / 2) * Real.sin (dLat / 2) +
      Real.cos (toRad lat1) * Real.cos (toRad lat2) *
        Real.sin (dLng / 2) * Real.sin (dLng / 2)
  let c := 2 * jsAtan2 (Real.sqrt a) (Real.sqrt (1 - a))
  R * c

/-- `distanceInMeters` as written in `src/public/main.js`. -/
noncomputable def distanceInMetersClient (lat1 lng1 lat2 lng2 : ℝ) : ℝ :=
  let R : ℝ := 6371000
  let dLat := toRad (lat2 - lat1)
  let dLng := toRad (lng2 - lng1)
  let a :=
    Real.sin (dLat / 2) * Real.sin (dLat / 2) +
      Real.cos (toRad lat1) * Real.cos (toRad lat2) *
        Real.sin (dLng / 2) * Real.sin (dLng / 2)
  let c := 2 * jsAtan2 (Real.sqrt a) (Real.sqrt (1 - a))
  R * c

/-- Modelled from the spec: `a = sin²(Δlat/2) + cos(lat1)·cos(lat2)·
sin²(Δlng/2)` (radians), `distance = 2·R·atan2(√a, √(1−a))` with
`R = 6371000`. -/
noncomputable def haversineReference (lat1 lng1 lat2 lng2 : ℝ) : ℝ :=
  let a :=
    Real.sin (toRad (lat2 - lat1) / 2) ^ 2 +
      Real.cos (toRad lat1) * Real.cos (toRad lat2) *
        Real.sin (toRad (lng2 - lng1) / 2) ^ 2
  2 * 6371000 * jsAtan2 (Real.sqrt a) (Real.sqrt (1 - a))

/-- The `a` term of one haversine copy. -/
noncomputable def haversineA (lat1 lng1 lat2 lng2 : ℝ) : ℝ :=
  Real.sin (toRad (lat2 - lat1) / 2) * Real.sin (toRad (lat2 - lat1) / 2) +
    Real.cos (toRad lat1) * Real.cos (toRad lat2) *
      Real.sin (toRad (lng2 - lng1) / 2) * Real.sin (toRad (lng2 - lng1) / 2)

/-- The copies are literally the reference formula. -/
theorem distanceInMetersServer_eq_reference (lat1 lng1 lat2 lng2 : ℝ) :
    distanceInMetersServer lat1 lng1 lat2 lng2 =
      haversineReference lat1 lng1 lat2 lng2 := by
  show (6371000 : ℝ) *
      (2 * jsAtan2 (Real.sqrt (haversineA lat1 lng1 lat2 lng2))
        (Real.sqrt (1 - haversineA lat1 lng1 lat2 lng2))) =
    2 * 6371000 * jsAtan2
      (Real.sqrt (Real.sin (toRad (lat2 - lat1) / 2) ^ 2 +
        Real.cos (toRad lat1) * Real.cos (toRad lat2) *
          Real.sin (toRad (lng2 - lng1) / 2) ^ 2))
      (Real.sqrt (1 - (Real.sin (toRad (lat2 - lat1) / 2) ^ 2 +
        Real.cos (toRad lat1) * Real.cos (toRad lat2) *
          Real.sin (toRad (lng2 - lng1) / 2) ^ 2)))
  rw [show haversineA lat1 lng1 lat2 lng2 =
      Real.sin (toRad (lat2 - lat1) / 2) ^ 2 +
        Real.cos (toRad lat1) * Real.cos (toRad lat2) *
          Real.sin (toRad (lng2 - lng1) / 2) ^ 2 from by unfold haversineA; ring]
  ring

/-- The `a` term vanishes on the diagonal. -/
theorem haversineA_self (lat lng : ℝ) : haversineA lat lng lat lng = 0 := by
  unfold haversineA
  have h : toRad (lat - lat) = 0 := by unfold toRad; ring
  have h2 : toRad (lng - lng) = 0 := by unfold toRad; ring
  rw [h, h2]
  simp

/-- The `a` term is symmetric in the two points. -/
theorem haversineA_symm (lat1 lng1 lat2 lng2 : ℝ) :
    haversineA lat1 lng1 lat2 lng2 = haversineA lat2 lng2 lat1 lng1 := by
  unfold haversineA
  have hlat : toRad (lat1 - lat2) = -toRad (lat2 - lat1) := by unfold toRad; ring
  have hlng : toRad (lng1 - lng2) = -toRad (lng2 - lng1) := by unfold toRad; ring
  rw [hlat, hlng, neg_div, Real.sin_neg, neg_div, Real.sin_neg]
  ring

/-! ## Claim C7 -/

/-- C7: each of the three `distanceInMeters` copies (SQL server, in-memory
server, client) equals the reference haversine formula with mean Earth
radius 6 371 000 m; the distance from a point to itself is 0, and the
function is symmetric in its two points. -/
theorem distanceInMeters_haversine_spec (lat1 lng1 lat2 lng2 : ℝ) :
    distanceInMetersServer lat1 lng1 lat2 lng2 =
      haversineReference lat1 lng1 lat2 lng2 ∧
    distanceInMetersMem lat1 lng1 lat2 lng2 =
      haversineReference lat1 lng1 lat2 lng2 ∧
    distanceInMetersClient lat1 lng1 lat2 lng2 =
      haversineReference lat1 lng1 lat2 lng2 ∧
    distanceInMetersServer lat1 lng1 lat1 lng1 = 0 ∧
    distanceInMetersServer lat1 lng1 lat2 lng2 =
      distanceInMetersServer lat2 lng2 lat1 lng1 := by
  refine ⟨distanceInMetersServer_eq_reference lat1 lng1 lat2 lng2,
    distanceInMetersServer_eq_reference lat1 lng1 lat2 lng2,
    distanceInMetersServer_eq_reference lat1 lng1 lat2 lng2, ?_, ?_⟩
  · show (6371000 : ℝ) *
      (2 * jsAtan2 (Real.sqrt (haversineA lat1 lng1 lat1 lng1))
        (Real.sqrt (1 - haversineA lat1 lng1 lat1 lng1))) = 0
    rw [haversineA_self]
    have h1 : Real.sqrt 0 = 0 := Real.sqrt_zero
    have h2 : Real.sqrt (1 - 0) = 1 := by rw [sub_zero, Real.sqrt_one]
    rw [h1, h2]
    have h3 : jsAtan2 0 1 = 0 := by
      unfold jsAtan2
      rw [if_pos one_pos]
      simp [Real.arctan_zero]
    rw [h3]
    ring
  · show (6371000 : ℝ) *
      (2 * jsAtan2 (Real.sqrt (haversineA lat1 lng1 lat2 lng2))
        (Real.sqrt (1 - haversineA lat1 lng1 lat2 lng2))) =
      (6371000 : ℝ) *
      (2 * jsAtan2 (Real.sqrt (haversineA lat2 lng2 lat1 lng1))
        (Real.sqrt (1 - haversineA lat2 lng2 lat1 lng1)))
    rw [haversineA_symm]

end Mapto
